import Mathlib

/-!
# Verification of the multi-tenant Twitter engagement polling engine

Shallow embedding of the multi-tenant worker (`src/router.js`) and, where a
claim refers to it, the single-tenant worker (`src/index.js`) of the
`x-loyalty-bot` repository.

The workers are Cloudflare Workers whose only state is a key/value store
(`TWITTER_ROUTER_KV` / `TWITTER_BOT_KV`).  Network effects (the Twitter API,
the reward service) are modelled as explicit inputs: a poll receives the
upstream response it would observe, and the KV store is threaded through the
functions as explicit state.  Engagement ids are decimal strings; the source
compares them with JavaScript `BigInt`, which we model with `decValue`
(decimal value of the string).
-/

namespace XBot

/-- Decimal value of a string of digits, as computed by JavaScript
`BigInt("…")` on the Twitter ids the workers handle.  Left fold with
accumulator, matching positional decimal notation. -/
def decValAux : List Char → Nat → Nat
  | [], acc => acc
  | c :: cs, acc => decValAux cs (acc * 10 + (c.toNat - 48))

/-- `decValue s` is the numeric (big-integer) value of the decimal-string id
`s`; this is the comparison semantics of `BigInt(tweet.id) > BigInt(newestTweetId)`
in `router.js`. -/
def decValue (s : String) : Nat := decValAux s.data 0

/-- Lower-casing as done by `handle.toLowerCase()` for ASCII handles. -/
def lowerChar (c : Char) : Char :=
  if 'A' ≤ c ∧ c ≤ 'Z' then Char.ofNat (c.toNat + 32) else c

/-- ASCII lower-casing of a string (used in KV cache keys). -/
def lowerStr (s : String) : String := ⟨s.data.map lowerChar⟩

/-- The KV keys used by `router.js`.  The source uses flat strings
(`highwater:mentions:{brand}`, `processed:{brand}:mention:{id}`,
`user_id:{brand}:{handle}`, `likers_checked:{brand}:{tweetId}`,
`retweeters_checked:{brand}:{tweetId}`); as the prefixes are distinct and the
embedded fields contain no separator, the string keys are in bijection with
this inductive type. -/
inductive Key
  /-- `highwater:{typ}:{brand}` — the per-(tenant, engagement-type) cursor. -/
  | highwater (typ brand : String)
  /-- `processed:{brand}:{typ}:{id}` — the per-engagement processed marker. -/
  | processed (brand typ id : String)
  /-- `user_id:{brand}:{handle}` — the handle → user-id cache. -/
  | userId (brand handle : String)
  /-- `likers_checked:{brand}:{tweetId}` — cached liker-id set of a post. -/
  | likersChecked (brand tweetId : String)
  /-- `retweeters_checked:{brand}:{tweetId}` — cached retweeter-id set. -/
  | retweetersChecked (brand tweetId : String)
deriving DecidableEq, Repr

/-- A stored KV value: either a raw string (cursors, `'true'` markers,
cached user ids) or a JSON-serialized list of actor ids (the liker /
retweeter caches, which the source stores via `JSON.stringify` and reads back
via `JSON.parse`; the round trip is faithful, so we store the list). -/
inductive Val
  | str (s : String)
  | ids (l : List String)
deriving DecidableEq, Repr

/-- First-match lookup in an association list of KV entries. -/
def lookupKey : List (Key × Val) → Key → Option Val
  | [], _ => none
  | (k', v) :: rest, k => if k' = k then some v else lookupKey rest k

/-- The worker's KV namespace.  `put` prepends, `get` returns the most recent
write, so the model has last-write-wins semantics like the real store.
Expiration TTLs are ignored: no claim spans a retention window. -/
structure KV where
  entries : List (Key × Val)
deriving DecidableEq, Repr

/-- Read a key (`env.TWITTER_ROUTER_KV.get`). -/
def KV.get (kv : KV) (k : Key) : Option Val := lookupKey kv.entries k

/-- Write a key (`env.TWITTER_ROUTER_KV.put`). -/
def KV.put (kv : KV) (k : Key) (v : Val) : KV := ⟨(k, v) :: kv.entries⟩

/-- Read a key expecting a raw string value (cursors, markers, user ids). -/
def KV.getStr (kv : KV) (k : Key) : Option String :=
  match kv.get k with
  | some (.str s) => some s
  | _ => none

/-- A tweet as returned by the search endpoint (`data.data[..]`). -/
structure Tweet where
  id : String
  author_id : String
  text : String
  /-- `in_reply_to_user_id`, present on reply search results. -/
  in_reply_to_user_id : Option String := none
deriving DecidableEq, Repr

/-- The structured per-type result a poll returns
(`{ found, rewarded, failed, errors }`). -/
structure PollResult where
  found : Nat
  rewarded : Nat
  failed : Nat
  errors : List String
deriving DecidableEq, Repr

/-- Output of the per-tweet processing loop of `pollTwitterMentions` /
`pollTwitterReplies` in `router.js` (lines 568–591): the KV store after the
marker writes, the running `newestTweetId`, the `rewarded` / `failed`
increments, and — as an observation for the theorems — the list of ids for
which `sendRewardEvent` was invoked, in batch order. -/
structure LoopOut where
  kv : KV
  newest : Option String
  rewarded : Nat
  failed : Nat
  dispatched : List String
deriving DecidableEq, Repr

/-- The `for (const tweet of tweets)` loop of `router.js` (mentions lines
570–591, replies lines 674–695), with the dispatch outcome supplied by the
oracle `dispatchOk` (the boolean `sendRewardEvent` returns for that tweet):

* an id with a processed marker is skipped (`continue`) — nothing else in
  the iteration runs, in particular `newestTweetId` is not updated;
* otherwise the reward is dispatched, `rewarded`/`failed` incremented,
  the processed marker written, and `newestTweetId` raised to `tweet.id`
  when `BigInt(tweet.id) > BigInt(newestTweetId)` (or it was null). -/
def engageLoop (brand typ : String) (dispatchOk : String → Bool) :
    List Tweet → KV → Option String → LoopOut
  | [], kv, newest => ⟨kv, newest, 0, 0, []⟩
  | t :: rest, kv, newest =>
    match kv.get (Key.processed brand typ t.id) with
    | some _ => engageLoop brand typ dispatchOk rest kv newest
    | none =>
      let success := dispatchOk t.id
      let kv' := kv.put (Key.processed brand typ t.id) (.str "true")
      let newest' :=
        match newest with
        | none => some t.id
        | some n => if decValue n < decValue t.id then some t.id else some n
      let out := engageLoop brand typ dispatchOk rest kv' newest'
      { out with
        rewarded := if success then out.rewarded + 1 else out.rewarded
        failed := if success then out.failed else out.failed + 1
        dispatched := t.id :: out.dispatched }

/-- Inputs of one mentions poll that come from outside the KV store: the
decrypted bearer token (or `none`), the configured handle (or `none`), the
upstream search response (`.error status` for a non-2xx HTTP status, `.ok`
for the parsed `data.data || []` batch), and the dispatch oracle. -/
structure PollEnv where
  bearerToken : Option String
  twitterHandle : Option String
  upstream : Except Nat (List Tweet)
  dispatchOk : String → Bool

/-- What a poll produces: its structured result, the KV store after all its
writes, and the observed list of dispatched ids. -/
structure PollOut where
  res : PollResult
  kv : KV
  dispatched : List String
deriving Repr

/-- `pollTwitterMentions` of `router.js` (lines 508–599):
check token and handle, read the cursor `highwater:mentions:{brand}`, issue
the search (non-2xx → single error, no writes), truncate to 3 on first run,
run the dedup/dispatch loop, and finally write the cursor to the loop's
`newestTweetId` when non-null. -/
def pollTwitterMentions (brand : String) (e : PollEnv) (kv : KV) : PollOut :=
  match e.bearerToken with
  | none => ⟨⟨0, 0, 0, ["No bearer token configured"]⟩, kv, []⟩
  | some _ =>
    match e.twitterHandle with
    | none => ⟨⟨0, 0, 0, ["No Twitter handle configured"]⟩, kv, []⟩
    | some _ =>
      let lastTweetId := kv.getStr (Key.highwater "mentions" brand)
      match e.upstream with
      | .error status =>
          ⟨⟨0, 0, 0, ["Twitter API error: " ++ toString status]⟩, kv, []⟩
      | .ok batch =>
          let tweets :=
            if lastTweetId = none ∧ 3 < batch.length then batch.take 3 else batch
          if tweets.isEmpty then ⟨⟨0, 0, 0, []⟩, kv, []⟩
          else
            let out := engageLoop brand "mention" e.dispatchOk tweets kv lastTweetId
            let kv2 :=
              match out.newest with
              | some nid => out.kv.put (Key.highwater "mentions" brand) (.str nid)
              | none => out.kv
            ⟨⟨tweets.length, out.rewarded, out.failed, []⟩, kv2, out.dispatched⟩

/-- `getUserId` of `router.js` (lines 890–920): return the cached
`user_id:{brand}:{handle}` if present; otherwise consult the users-by-username
endpoint (`lookup`), returning `none` on a non-2xx or a missing `data.data.id`,
and caching the id on success.  Note the cache `put` on the miss path. -/
def getUserId (brand handle : String) (lookup : Except Nat (Option String))
    (kv : KV) : Option String × KV :=
  match kv.getStr (Key.userId brand (lowerStr handle)) with
  | some cid => (some cid, kv)
  | none =>
    match lookup with
    | .error _ => (none, kv)
    | .ok none => (none, kv)
    | .ok (some uid) => (some uid, kv.put (Key.userId brand (lowerStr handle)) (.str uid))

/-- Inputs of one replies poll: as `PollEnv`, plus the outcome of the
users-by-username lookup used by `getUserId`. -/
structure ReplyEnv where
  bearerToken : Option String
  twitterHandle : Option String
  userLookup : Except Nat (Option String)
  upstream : Except Nat (List Tweet)
  dispatchOk : String → Bool

/-- `pollTwitterReplies` of `router.js` (lines 605–703): like the mentions
poll but it first resolves the brand's user id (`getUserId` — which may write
the user-id cache), and filters the batch to tweets whose
`in_reply_to_user_id` equals that id before truncation and processing. -/
def pollTwitterReplies (brand : String) (e : ReplyEnv) (kv : KV) : PollOut :=
  match e.bearerToken with
  | none => ⟨⟨0, 0, 0, ["No bearer token configured"]⟩, kv, []⟩
  | some _ =>
    match e.twitterHandle with
    | none => ⟨⟨0, 0, 0, ["No Twitter handle configured"]⟩, kv, []⟩
    | some handle =>
      match getUserId brand handle e.userLookup kv with
      | (none, kv1) =>
          ⟨⟨0, 0, 0, ["Could not find user ID for @" ++ handle]⟩, kv1, []⟩
      | (some uid, kv1) =>
          let lastTweetId := kv1.getStr (Key.highwater "replies" brand)
          match e.upstream with
          | .error status =>
              ⟨⟨0, 0, 0, ["Twitter API error: " ++ toString status]⟩, kv1, []⟩
          | .ok batch0 =>
              let filtered := batch0.filter
                (fun t => decide (t.in_reply_to_user_id = some uid))
              let tweets :=
                if lastTweetId = none ∧ 3 < filtered.length then
                  filtered.take 3
                else filtered
              if tweets.isEmpty then ⟨⟨0, 0, 0, []⟩, kv1, []⟩
              else
                let out := engageLoop brand "reply" e.dispatchOk tweets kv1 lastTweetId
                let kv2 :=
                  match out.newest with
                  | some nid => out.kv.put (Key.highwater "replies" brand) (.str nid)
                  | none => out.kv
                ⟨⟨tweets.length, out.rewarded, out.failed, []⟩, kv2, out.dispatched⟩

/-! ## Reward dispatch (`sendRewardEvent`, `router.js` lines 1014–1090) -/

/-- The reward payload built once at the top of `sendRewardEvent` and used by
both delivery channels. -/
structure Payload where
  brandId : Option String
  eventType : String
  userEmail : String
  twitterHandle : Option String
  tweet_id : String
  twitter_user_id : String
  original_tweet_id : Option String
  tweet_text : String
deriving DecidableEq, Repr

/-- A brand configuration as loaded from `brand:{slug}` (the fields
`sendRewardEvent` reads). -/
structure BrandConfig where
  brand_id : Option String
  twitter_handle : Option String
deriving DecidableEq, Repr

/-- A synthetic engagement object as passed to `sendRewardEvent` (a tweet, or
the `likeEvent` / `retweetEvent` objects built for likes and retweets). -/
structure Engagement where
  id : String
  author_id : String
  text : String
  liked_tweet_id : Option String := none
  retweeted_tweet_id : Option String := none
deriving DecidableEq, Repr

/-- The `payload` object of `sendRewardEvent` (lines 1018–1031).  The
timestamp field is omitted: it is `new Date()`, identical for both channels
within one call. -/
def buildPayload (cfg : BrandConfig) (tweet : Engagement) (eventType : String) :
    Payload :=
  { brandId := cfg.brand_id
    eventType := eventType
    userEmail := "twitter_" ++ tweet.author_id ++ "@loyalteez.app"
    twitterHandle := cfg.twitter_handle
    tweet_id := tweet.id
    twitter_user_id := tweet.author_id
    original_tweet_id :=
      match tweet.liked_tweet_id with
      | some l => some l
      | none => tweet.retweeted_tweet_id
    tweet_text := tweet.text }

/-- Observable outcome of one delivery attempt on a channel:
the transport threw (`exn`), or a response arrived with the given
`response.ok` flag and whether its body parsed as JSON. -/
inductive ChannelOutcome
  | exn
  | resp (ok : Bool) (validJson : Bool)
deriving DecidableEq, Repr

/-- The service-binding branch succeeds iff no transport error, the body is
valid JSON (parsed before the status check, lines 1048–1053) and the status
is 2xx (line 1055); every other case `throw`s into the enclosing `catch`. -/
def internalSuccess : ChannelOutcome → Bool
  | .exn => false
  | .resp ok validJson => validJson && ok

/-- The HTTP fallback branch succeeds iff no transport error and a 2xx
status (lines 1067–1089); it never inspects the body. -/
def httpSuccess : ChannelOutcome → Bool
  | .exn => false
  | .resp ok _ => ok

/-- What one call of `sendRewardEvent` did: the boolean it returned, and the
payload (if any) it sent over each channel. -/
structure DispatchTrace where
  success : Bool
  sentInternal : Option Payload
  sentHttp : Option Payload
deriving DecidableEq, Repr

/-- `sendRewardEvent` of `router.js` (lines 1014–1090).  `binding` is `none`
when `env.EVENT_HANDLER` is unset.  Every failure of the service-binding
branch is caught and falls through to the HTTP fallback; every failure of the
fallback yields `false`.  The function is total: the source catches every
exception, so dispatch never throws. -/
def sendRewardEvent (cfg : BrandConfig) (tweet : Engagement) (eventType : String)
    (binding : Option ChannelOutcome) (http : ChannelOutcome) : DispatchTrace :=
  let payload := buildPayload cfg tweet eventType
  match binding with
  | some out =>
      if internalSuccess out then ⟨true, some payload, none⟩
      else ⟨httpSuccess http, some payload, some payload⟩
  | none => ⟨httpSuccess http, none, some payload⟩

/-! ## Liker / retweeter reconstruction (`router.js` lines 942–1008) -/

/-- An actor (`data.data[..]` of the liking_users / retweeted_by endpoints). -/
structure Actor where
  id : String
deriving DecidableEq, Repr

/-- Outcome of the liking_users / retweeted_by fetch: 403 (which the source
turns into a thrown error), another non-2xx, or the actor list. -/
inductive ActorsFetch
  | forbidden
  | httpError (status : Nat)
  | success (actors : List Actor)
deriving Repr

/-- `getTweetLikers` of `router.js` (lines 942–974): read the cached liker-id
list for the post, fetch the current likers, `throw` on 403, return `[]` on
any other non-2xx (cache untouched), otherwise return the likers not in the
cache and overwrite the cache with exactly the fresh id list. -/
def getTweetLikers (brand tweetId : String) (fetch : ActorsFetch) (kv : KV) :
    Except String (List Actor × KV) :=
  let previousLikerIds : List String :=
    match kv.get (Key.likersChecked brand tweetId) with
    | some (.ids l) => l
    | _ => []
  match fetch with
  | .forbidden => .error "403 - Elevated API access required for likes"
  | .httpError _ => .ok ([], kv)
  | .success allLikers =>
      let newLikers := allLikers.filter (fun l => ¬ previousLikerIds.contains l.id)
      let allLikerIds := allLikers.map (·.id)
      .ok (newLikers, kv.put (Key.likersChecked brand tweetId) (.ids allLikerIds))

/-- `getTweetRetweeters` of `router.js` (lines 976–1008); identical to
`getTweetLikers` but for the retweeters cache key and endpoint. -/
def getTweetRetweeters (brand tweetId : String) (fetch : ActorsFetch) (kv : KV) :
    Except String (List Actor × KV) :=
  let previousRetweeterIds : List String :=
    match kv.get (Key.retweetersChecked brand tweetId) with
    | some (.ids l) => l
    | _ => []
  match fetch with
  | .forbidden => .error "403 - Elevated API access required for retweets"
  | .httpError _ => .ok ([], kv)
  | .success allRetweeters =>
      let newRetweeters :=
        allRetweeters.filter (fun rt => ¬ previousRetweeterIds.contains rt.id)
      let allRetweeterIds := allRetweeters.map (·.id)
      .ok (newRetweeters,
        kv.put (Key.retweetersChecked brand tweetId) (.ids allRetweeterIds))

/-- The synthetic engagement id built for a like
(`like_${tweet.id}_${liker.id}`, line 753). -/
def likeEventId (tweetId likerId : String) : String :=
  "like_" ++ tweetId ++ "_" ++ likerId

/-- Output of the inner liker-processing loop: the counter increments, the
store after the marker writes, and the dispatched synthetic event ids. -/
structure LikersLoopOut where
  found : Nat
  rewarded : Nat
  failed : Nat
  kv : KV
  dispatched : List String
deriving DecidableEq, Repr

/-- The inner `for (const liker of likers)` loop of `pollTwitterLikes`
(`router.js` lines 749–773) for one brand tweet: `found` is incremented for
every liker, then the processed marker `processed:{brand}:like:{eventId}`
gates dispatch; the marker is written after dispatch regardless of success. -/
def likersLoop (brand : String) (dispatchOk : String → Bool) (tweetId : String) :
    List Actor → KV → LikersLoopOut
  | [], kv => ⟨0, 0, 0, kv, []⟩
  | liker :: rest, kv =>
      let eid := likeEventId tweetId liker.id
      match kv.get (Key.processed brand "like" eid) with
      | some _ =>
          let out := likersLoop brand dispatchOk tweetId rest kv
          { out with found := out.found + 1 }
      | none =>
          let success := dispatchOk eid
          let kv1 := kv.put (Key.processed brand "like" eid) (.str "true")
          let out := likersLoop brand dispatchOk tweetId rest kv1
          { out with
            found := out.found + 1
            rewarded := if success then out.rewarded + 1 else out.rewarded
            failed := if success then out.failed else out.failed + 1
            dispatched := eid :: out.dispatched }

/-! ## Credential decryption (`decryptCredential`, `router.js` lines 74–103) -/

/-- `str.split(':')` of JavaScript, character by character (keeps empty
segments, including a trailing one). -/
def splitColonAux : List Char → List Char → List String
  | [], acc => [⟨acc.reverse⟩]
  | c :: cs, acc =>
      if c = ':' then (⟨acc.reverse⟩ : String) :: splitColonAux cs []
      else splitColonAux cs (c :: acc)

/-- `encrypted.split(':')`. -/
def splitColon (s : String) : List String := splitColonAux s.data []

/-- `encrypted.startsWith('enc:')` (false also for the empty/absent blob,
which the source treats the same way: return the input unchanged). -/
def startsWithEnc (s : String) : Bool :=
  match s.data with
  | 'e' :: 'n' :: 'c' :: ':' :: _ => true
  | _ => false

/-- `decryptCredential` of `router.js` (lines 74–103).  The NaCl box-open of
the base64 payload with the deployment private key is abstracted as the
oracle `boxOpen : base64Data → privateKeyBase64 → Option plaintext`; the
claim under verification concerns only the prefix/version dispatch around it.
A thrown JS error is modelled as `.error` (the source re-throws every failure
as `Failed to decrypt: …`). -/
def decryptCredential (boxOpen : String → String → Option String)
    (encrypted privateKeyBase64 : String) : Except String String :=
  if startsWithEnc encrypted = false then .ok encrypted
  else
    let parts := splitColon encrypted
    if parts.length ≠ 3 then .error "Failed to decrypt: Invalid format"
    else
      let version := parts.getD 1 ""
      let base64Data := parts.getD 2 ""
      if version ≠ "v1" then
        .error ("Failed to decrypt: Unsupported version: " ++ version)
      else
        match boxOpen base64Data privateKeyBase64 with
        | none => .error "Failed to decrypt: Decryption failed"
        | some plaintext => .ok plaintext

/-! ## Orchestration (`pollAllEngagements` lines 443–502, `scheduled`
lines 246–284 of `router.js`) -/

/-- Aggregate of the four per-type results. -/
structure AllResults where
  mentions : PollResult
  replies : PollResult
  likes : PollResult
  retweets : PollResult
deriving DecidableEq, Repr

/-- The initial per-type entry of `pollAllEngagements`
(`{ found: 0, rewarded: 0, errors: [] }`; the absent `failed` field is 0). -/
def emptyPR : PollResult := ⟨0, 0, 0, []⟩

/-- The `try { … } catch (error) { results.X.errors.push(error.message) }`
wrapper around each sub-poll: a normal return is kept as is, a thrown error
becomes the initial entry with the message pushed. -/
def settle : Except String PollResult → PollResult
  | .ok r => r
  | .error e => ⟨0, 0, 0, [e]⟩

/-- Return shape of `pollAllEngagements`: an optional top-level error (token
or handle missing) plus the four per-type results. -/
structure AllOutcome where
  error : Option String
  results : AllResults
deriving DecidableEq, Repr

/-- `pollAllEngagements` of `router.js` (lines 443–502).  Each engagement
type's poll is an independent outcome — either a returned result or a thrown error —
and each is settled independently inside its own `try`/`catch`, so the
function itself never throws once token and handle are present. -/
def pollAllEngagements (bearerToken twitterHandle : Option String)
    (mentions replies likes retweets : Except String PollResult) : AllOutcome :=
  let results : AllResults := ⟨emptyPR, emptyPR, emptyPR, emptyPR⟩
  match bearerToken with
  | none => ⟨some "No valid bearer token", results⟩
  | some _ =>
    match twitterHandle with
    | none => ⟨some "No Twitter handle configured", results⟩
    | some _ =>
        ⟨none, ⟨settle mentions, settle replies, settle likes, settle retweets⟩⟩

/-- What happens for one `brand:` key inside the `scheduled` loop
(`router.js` lines 255–277): the stored config is missing (`continue`), fails
to parse (`JSON.parse` throws — caught per brand), is inactive (`continue`),
or is active and the whole-tenant poll either returns or throws. -/
inductive BrandEntry
  | missing
  | corrupt (e : String)
  | inactive
  | activeRun (outcome : Except String AllOutcome)

/-- One element of the `results` array `scheduled` builds per brand. -/
structure BrandStatus where
  brand : String
  ok : Bool
  error : Option String
deriving DecidableEq, Repr

/-- The body of the per-brand `try`/`catch` of `scheduled`: `none` when the
brand is skipped (missing or inactive), an error entry when config parsing or
the tenant poll throws, a success entry otherwise. -/
def scheduledStep (brand : String) : BrandEntry → Option BrandStatus
  | .missing => none
  | .corrupt e => some ⟨brand, false, some e⟩
  | .inactive => none
  | .activeRun (.ok _) => some ⟨brand, true, none⟩
  | .activeRun (.error e) => some ⟨brand, false, some e⟩

/-- The `for (const key of brandList.keys)` loop of `scheduled` (lines
255–277): every brand is visited in order; a failure for one brand is caught,
recorded, and the loop proceeds with the next brand. -/
def scheduledRun : List (String × BrandEntry) → List BrandStatus
  | [] => []
  | (b, e) :: rest =>
      match scheduledStep b e with
      | none => scheduledRun rest
      | some st => st :: scheduledRun rest

/-! ## Store lemmas -/

theorem KV.get_put_self (kv : KV) (k : Key) (v : Val) :
    (kv.put k v).get k = some v := by
  simp [KV.put, KV.get, lookupKey]

theorem KV.get_put_ne (kv : KV) (k k' : Key) (v : Val) (h : k' ≠ k) :
    (kv.put k' v).get k = kv.get k := by
  simp [KV.put, KV.get, lookupKey, h]

theorem KV.getStr_put_ne (kv : KV) (k k' : Key) (v : Val) (h : k' ≠ k) :
    (kv.put k' v).getStr k = kv.getStr k := by
  simp [KV.getStr, KV.get_put_ne kv k k' v h]

theorem KV.getStr_put_self (kv : KV) (k : Key) (s : String) :
    (kv.put k (.str s)).getStr k = some s := by
  simp [KV.getStr, KV.get_put_self]

/-! ## Loop lemmas

Invariants of the per-tweet dedup/dispatch loop shared by the mention and
reply polls. -/

/-- The loop only ever `put`s processed markers of its own type: every other
key reads the same before and after. -/
theorem engageLoop_preserves (brand typ : String) (d : String → Bool)
    (l : List Tweet) (kv : KV) (newest : Option String) (k : Key)
    (hk : ∀ i, k ≠ Key.processed brand typ i) :
    (engageLoop brand typ d l kv newest).kv.get k = kv.get k := by
  induction l generalizing kv newest with
  | nil => rfl
  | cons t rest ih =>
    simp only [engageLoop]
    cases hm : kv.get (Key.processed brand typ t.id) with
    | some v => simpa using ih kv newest
    | none =>
      simp only []
      rw [ih]
      exact KV.get_put_ne kv k _ _ (fun h => hk t.id h.symm)

/-- Keys present in the store stay present across the loop (markers are only
ever added, never removed). -/
theorem engageLoop_mono_isSome (brand typ : String) (d : String → Bool)
    (l : List Tweet) (kv : KV) (newest : Option String) (k : Key)
    (hk : (kv.get k).isSome) :
    ((engageLoop brand typ d l kv newest).kv.get k).isSome := by
  induction l generalizing kv newest with
  | nil => exact hk
  | cons t rest ih =>
    simp only [engageLoop]
    cases hm : kv.get (Key.processed brand typ t.id) with
    | some v => exact ih kv newest hk
    | none =>
      simp only []
      apply ih
      by_cases he : Key.processed brand typ t.id = k
      · rw [← he, KV.get_put_self]; rfl
      · rw [KV.get_put_ne kv k _ _ he]; exact hk

/-- An id whose processed marker is present when the loop starts is never
dispatched (`continue` skips the whole iteration). -/
theorem engageLoop_skip (brand typ : String) (d : String → Bool)
    (l : List Tweet) (kv : KV) (newest : Option String) (p : String)
    (hp : (kv.get (Key.processed brand typ p)).isSome) :
    p ∉ (engageLoop brand typ d l kv newest).dispatched := by
  induction l generalizing kv newest with
  | nil => simp [engageLoop]
  | cons t rest ih =>
    simp only [engageLoop]
    cases hm : kv.get (Key.processed brand typ t.id) with
    | some v => exact ih kv newest hp
    | none =>
      simp only [List.mem_cons, not_or]
      constructor
      · intro he
        rw [he] at hp
        rw [hm] at hp
        exact absurd hp (by simp)
      · apply ih
        by_cases he : Key.processed brand typ t.id = Key.processed brand typ p
        · rw [he] at hm
          rw [hm] at hp
          exact absurd hp (by simp)
        · rw [KV.get_put_ne kv _ _ _ he]; exact hp

/-- Counted outcomes match dispatch attempts: `rewarded + failed` equals the
number of dispatched engagements. -/
theorem engageLoop_count (brand typ : String) (d : String → Bool)
    (l : List Tweet) (kv : KV) (newest : Option String) :
    (engageLoop brand typ d l kv newest).rewarded
      + (engageLoop brand typ d l kv newest).failed
      = (engageLoop brand typ d l kv newest).dispatched.length := by
  induction l generalizing kv newest with
  | nil => rfl
  | cons t rest ih =>
    simp only [engageLoop]
    cases hm : kv.get (Key.processed brand typ t.id) with
    | some v => exact ih kv newest
    | none =>
      simp only [List.length_cons]
      have key := ih (kv.put (Key.processed brand typ t.id) (Val.str "true"))
        ((match newest with
          | none => some t.id
          | some n => if decValue n < decValue t.id then some t.id else some n))
      cases h : d t.id <;> simp [h] <;> omega

/-- Once `newestTweetId` is non-null it stays non-null. -/
theorem engageLoop_newest_isSome (brand typ : String) (d : String → Bool)
    (l : List Tweet) (kv : KV) (n : String) :
    ((engageLoop brand typ d l kv (some n)).newest).isSome := by
  induction l generalizing kv n with
  | nil => rfl
  | cons t rest ih =>
    simp only [engageLoop]
    cases hm : kv.get (Key.processed brand typ t.id) with
    | some v => exact ih kv n
    | none =>
      simp only []
      by_cases hlt : decValue n < decValue t.id <;> simp [hlt] <;> apply ih

/-- The final `newestTweetId` is either the initial cursor value or the id of
a dispatched engagement — never the id of a skipped (already-processed)
engagement. -/
theorem engageLoop_newest_source (brand typ : String) (d : String → Bool)
    (l : List Tweet) (kv : KV) (newest : Option String) :
    (engageLoop brand typ d l kv newest).newest = newest
      ∨ ∃ i ∈ (engageLoop brand typ d l kv newest).dispatched,
          (engageLoop brand typ d l kv newest).newest = some i := by
  induction l generalizing kv newest with
  | nil => left; rfl
  | cons t rest ih =>
    simp only [engageLoop]
    cases hm : kv.get (Key.processed brand typ t.id) with
    | some v => exact ih kv newest
    | none =>
      simp only []
      rcases ih (kv.put (Key.processed brand typ t.id) (Val.str "true"))
          (match newest with
            | none => some t.id
            | some n => if decValue n < decValue t.id then some t.id else some n)
          with h | ⟨i, hi, hni⟩
      · cases newest with
        | none =>
          right
          exact ⟨t.id, by simp, by simpa using h⟩
        | some n =>
          by_cases hlt : decValue n < decValue t.id
          · right
            refine ⟨t.id, by simp, ?_⟩
            simpa [hlt] using h
          · left
            simpa [hlt] using h
      · right
        exact ⟨i, by simp [hi], hni⟩

/-- `newestTweetId` never decreases numerically. -/
theorem engageLoop_newest_mono (brand typ : String) (d : String → Bool)
    (l : List Tweet) (kv : KV) (n : String) :
    ∃ n', (engageLoop brand typ d l kv (some n)).newest = some n'
      ∧ decValue n ≤ decValue n' := by
  induction l generalizing kv n with
  | nil => exact ⟨n, rfl, le_refl _⟩
  | cons t rest ih =>
    simp only [engageLoop]
    cases hm : kv.get (Key.processed brand typ t.id) with
    | some v => exact ih kv n
    | none =>
      simp only []
      by_cases hlt : decValue n < decValue t.id
      · simp only [hlt, if_true]
        obtain ⟨n', h1, h2⟩ := ih (kv.put (Key.processed brand typ t.id) (Val.str "true")) t.id
        exact ⟨n', h1, le_trans (le_of_lt hlt) h2⟩
      · simp only [hlt, if_false]
        exact ih (kv.put (Key.processed brand typ t.id) (Val.str "true")) n

/-- If `newestTweetId` moves at all, it moves strictly up: the final value is
the initial one, or numerically greater. -/
theorem engageLoop_newest_strict (brand typ : String) (d : String → Bool)
    (l : List Tweet) (kv : KV) (n : String) :
    (engageLoop brand typ d l kv (some n)).newest = some n
      ∨ ∃ n', (engageLoop brand typ d l kv (some n)).newest = some n'
          ∧ decValue n < decValue n' := by
  induction l generalizing kv n with
  | nil => left; rfl
  | cons t rest ih =>
    simp only [engageLoop]
    cases hm : kv.get (Key.processed brand typ t.id) with
    | some v => exact ih kv n
    | none =>
      simp only []
      by_cases hlt : decValue n < decValue t.id
      · simp only [hlt, if_true]
        right
        obtain ⟨n', h1, h2⟩ := engageLoop_newest_mono brand typ d rest
          (kv.put (Key.processed brand typ t.id) (Val.str "true")) t.id
        exact ⟨n', h1, lt_of_lt_of_le hlt h2⟩
      · simp only [hlt, if_false]
        exact ih (kv.put (Key.processed brand typ t.id) (Val.str "true")) n

/-- Every dispatched id is numerically at most the final `newestTweetId`. -/
theorem engageLoop_newest_ub (brand typ : String) (d : String → Bool)
    (l : List Tweet) (kv : KV) (newest : Option String) (n' : String)
    (hn : (engageLoop brand typ d l kv newest).newest = some n') :
    ∀ i ∈ (engageLoop brand typ d l kv newest).dispatched,
      decValue i ≤ decValue n' := by
  induction l generalizing kv newest with
  | nil => simp [engageLoop]
  | cons t rest ih =>
    simp only [engageLoop] at hn ⊢
    cases hm : kv.get (Key.processed brand typ t.id) with
    | some v =>
      rw [hm] at hn
      exact ih kv newest hn
    | none =>
      rw [hm] at hn
      simp only [] at hn ⊢
      intro i hi
      rcases List.mem_cons.mp hi with rfl | hi'
      · -- `i = t.id`: the step value is numerically at least `t.id`, and the
        -- remaining loop only raises it.
        have step : ∃ m, (match newest with
            | none => some t.id
            | some n => if decValue n < decValue t.id then some t.id else some n)
            = some m ∧ decValue t.id ≤ decValue m := by
          cases newest with
          | none => exact ⟨t.id, rfl, le_refl _⟩
          | some n =>
            by_cases hlt : decValue n < decValue t.id
            · exact ⟨t.id, by simp [hlt], le_refl _⟩
            · exact ⟨n, by simp [hlt], le_of_not_lt hlt⟩
        obtain ⟨m, hmeq, hmle⟩ := step
        rw [hmeq] at hn
        obtain ⟨n'', h1, h2⟩ := engageLoop_newest_mono brand typ d rest
          (kv.put (Key.processed brand typ t.id) (Val.str "true")) m
        rw [hn] at h1
        cases h1
        exact le_trans hmle h2
      · exact ih (kv.put (Key.processed brand typ t.id) (Val.str "true")) _ hn i hi'

/-- When every id in the batch is fresh (no marker, pairwise distinct), the
loop dispatches exactly the batch's ids, in order. -/
theorem engageLoop_all_new (brand typ : String) (d : String → Bool)
    (l : List Tweet) (kv : KV) (newest : Option String)
    (hnodup : (l.map Tweet.id).Nodup)
    (hnew : ∀ t ∈ l, kv.get (Key.processed brand typ t.id) = none) :
    (engageLoop brand typ d l kv newest).dispatched = l.map Tweet.id := by
  induction l generalizing kv newest with
  | nil => rfl
  | cons t rest ih =>
    simp only [engageLoop]
    rw [hnew t (by simp)]
    simp only [List.map_cons]
    rw [ih]
    · simpa using hnodup.of_cons
    · intro t' ht'
      have hne : t'.id ≠ t.id := by
        simp only [List.map_cons, List.nodup_cons] at hnodup
        intro he
        exact hnodup.1 (he ▸ List.mem_map_of_mem Tweet.id ht')
      rw [KV.get_put_ne kv _ _ _ (by simp [hne.symm])]
      exact hnew t' (List.mem_cons_of_mem _ ht')

/-- A null final `newestTweetId` means nothing was dispatched. -/
theorem engageLoop_newest_none (brand typ : String) (d : String → Bool)
    (l : List Tweet) (kv : KV) (newest : Option String)
    (hn : (engageLoop brand typ d l kv newest).newest = none) :
    (engageLoop brand typ d l kv newest).dispatched = [] := by
  induction l generalizing kv newest with
  | nil => rfl
  | cons t rest ih =>
    simp only [engageLoop] at hn ⊢
    cases hm : kv.get (Key.processed brand typ t.id) with
    | some v =>
      rw [hm] at hn
      exact ih kv newest hn
    | none =>
      rw [hm] at hn
      simp only [] at hn
      exfalso
      have hs : ∃ m, (match newest with
          | none => some t.id
          | some n => if decValue n < decValue t.id then some t.id else some n)
          = some m := by
        cases newest with
        | none => exact ⟨t.id, rfl⟩
        | some n =>
          by_cases hlt : decValue n < decValue t.id
          · exact ⟨t.id, by simp [hlt]⟩
          · exact ⟨n, by simp [hlt]⟩
      obtain ⟨m, hme⟩ := hs
      rw [hme] at hn
      have := engageLoop_newest_isSome brand typ d rest
        (kv.put (Key.processed brand typ t.id) (Val.str "true")) m
      rw [hn] at this
      exact absurd this (by simp)

/-- Every engagement the loop considers ends up with a processed marker,
whether its dispatch succeeded, failed, or was skipped because the marker was
already there. -/
theorem engageLoop_marks (brand typ : String) (d : String → Bool)
    (l : List Tweet) (kv : KV) (newest : Option String) :
    ∀ t ∈ l,
      (((engageLoop brand typ d l kv newest).kv).get
        (Key.processed brand typ t.id)).isSome := by
  induction l generalizing kv newest with
  | nil => intro t ht; cases ht
  | cons t' rest ih =>
    intro t ht
    simp only [engageLoop]
    cases hm : kv.get (Key.processed brand typ t'.id) with
    | some v =>
      rcases List.mem_cons.mp ht with rfl | ht'
      · exact engageLoop_mono_isSome brand typ d rest kv newest _ (by rw [hm]; rfl)
      · exact ih kv newest t ht'
    | none =>
      rcases List.mem_cons.mp ht with rfl | ht'
      · apply engageLoop_mono_isSome
        rw [KV.get_put_self]
        rfl
      · exact ih _ _ t ht'

/-- A synthetic like-event id whose marker is present is never dispatched by
the liker loop. -/
theorem likersLoop_skip (brand : String) (d : String → Bool) (tid : String)
    (A : List Actor) (kv : KV) (eid : String)
    (hp : (kv.get (Key.processed brand "like" eid)).isSome) :
    eid ∉ (likersLoop brand d tid A kv).dispatched := by
  induction A generalizing kv with
  | nil => simp [likersLoop]
  | cons a rest ih =>
    simp only [likersLoop]
    cases hm : kv.get (Key.processed brand "like" (likeEventId tid a.id)) with
    | some v => exact ih kv hp
    | none =>
      simp only [List.mem_cons, not_or]
      constructor
      · intro he
        rw [← he] at hm
        rw [hm] at hp
        exact absurd hp (by simp)
      · apply ih
        by_cases he : Key.processed brand "like" (likeEventId tid a.id)
            = Key.processed brand "like" eid
        · rw [he] at hm
          rw [hm] at hp
          exact absurd hp (by simp)
        · rw [KV.get_put_ne kv _ _ _ he]
          exact hp

/-- `scheduledRun` distributes over list append: the brands after any point
in the list are processed exactly as they would be on their own. -/
theorem scheduledRun_append (xs ys : List (String × BrandEntry)) :
    scheduledRun (xs ++ ys) = scheduledRun xs ++ scheduledRun ys := by
  induction xs with
  | nil => rfl
  | cons x rest ih =>
    rcases x with ⟨b, e⟩
    simp only [List.cons_append, scheduledRun]
    cases scheduledStep b e <;> simp [ih]

/-- `getUserId` touches no key other than the user-id cache entry. -/
theorem getUserId_preserves (brand handle : String)
    (lookup : Except Nat (Option String)) (kv : KV) (k : Key)
    (hk : ∀ b h2, k ≠ Key.userId b h2) :
    ((getUserId brand handle lookup kv).2).get k = kv.get k := by
  unfold getUserId
  cases kv.getStr (Key.userId brand (lowerStr handle)) with
  | some cid => rfl
  | none =>
    cases lookup with
    | error s => rfl
    | ok uid? =>
      cases uid? with
      | none => rfl
      | some uid =>
        exact KV.get_put_ne kv k _ _ (fun h => hk _ _ h.symm)

/-- The processing tail of a mentions poll, for a given post-truncation tweet
list `l`: run the dedup/dispatch loop and write back the cursor.  Used to
state which of the poll's control-flow paths was taken. -/
def runMentions (brand : String) (d : String → Bool) (l : List Tweet) (kv : KV) :
    PollOut :=
  let lastTweetId := kv.getStr (Key.highwater "mentions" brand)
  let out := engageLoop brand "mention" d l kv lastTweetId
  let kv2 :=
    match out.newest with
    | some nid => out.kv.put (Key.highwater "mentions" brand) (.str nid)
    | none => out.kv
  ⟨⟨l.length, out.rewarded, out.failed, []⟩, kv2, out.dispatched⟩

/-- Control-flow of `pollTwitterMentions`: either an early-return path (no
token / no handle / upstream error / empty batch) that leaves the store
untouched, dispatches nothing and counts nothing — or the processing path
`runMentions` on some (possibly truncated) tweet list. -/
theorem pollTwitterMentions_spec (brand : String) (e : PollEnv) (kv : KV) :
    ((pollTwitterMentions brand e kv).kv = kv
      ∧ (pollTwitterMentions brand e kv).dispatched = []
      ∧ (pollTwitterMentions brand e kv).res.rewarded = 0
      ∧ (pollTwitterMentions brand e kv).res.failed = 0)
    ∨ ∃ l : List Tweet,
        pollTwitterMentions brand e kv = runMentions brand e.dispatchOk l kv := by
  rcases e with ⟨tok, hdl, up, d⟩
  cases tok with
  | none => left; exact ⟨rfl, rfl, rfl, rfl⟩
  | some tok =>
    cases hdl with
    | none => left; exact ⟨rfl, rfl, rfl, rfl⟩
    | some hdl =>
      cases up with
      | error status => left; exact ⟨rfl, rfl, rfl, rfl⟩
      | ok batch =>
        simp only [pollTwitterMentions]
        split <;> split
        · left; exact ⟨rfl, rfl, rfl, rfl⟩
        · right; exact ⟨_, rfl⟩
        · left; exact ⟨rfl, rfl, rfl, rfl⟩
        · right; exact ⟨_, rfl⟩

/-- The processing tail of a replies poll (post-filter, post-truncation list
`l`, store `kv` as left by the user-id resolution). -/
def runReplies (brand : String) (d : String → Bool) (l : List Tweet) (kv : KV) :
    PollOut :=
  let lastTweetId := kv.getStr (Key.highwater "replies" brand)
  let out := engageLoop brand "reply" d l kv lastTweetId
  let kv2 :=
    match out.newest with
    | some nid => out.kv.put (Key.highwater "replies" brand) (.str nid)
    | none => out.kv
  ⟨⟨l.length, out.rewarded, out.failed, []⟩, kv2, out.dispatched⟩

/-- Control-flow of `pollTwitterReplies`: there is an intermediate store
`kv1` (the original store, possibly extended with the user-id cache entry by
`getUserId` — it agrees with `kv` on every non-user-id key) from which the
poll either early-returns without dispatching or counting anything, or runs
the processing tail `runReplies` on some tweet list. -/
theorem pollTwitterReplies_spec (brand : String) (e : ReplyEnv) (kv : KV) :
    ∃ kv1 : KV,
      (∀ k : Key, (∀ b h2, k ≠ Key.userId b h2) → kv1.get k = kv.get k)
      ∧ (((pollTwitterReplies brand e kv).kv = kv1
            ∧ (pollTwitterReplies brand e kv).dispatched = []
            ∧ (pollTwitterReplies brand e kv).res.rewarded = 0
            ∧ (pollTwitterReplies brand e kv).res.failed = 0)
        ∨ ∃ l, pollTwitterReplies brand e kv = runReplies brand e.dispatchOk l kv1) := by
  rcases e with ⟨tok, hdl, lookup, up, d⟩
  cases tok with
  | none => exact ⟨kv, fun k _ => rfl, Or.inl ⟨rfl, rfl, rfl, rfl⟩⟩
  | some tok =>
    cases hdl with
    | none => exact ⟨kv, fun k _ => rfl, Or.inl ⟨rfl, rfl, rfl, rfl⟩⟩
    | some hdl =>
      refine ⟨(getUserId brand hdl lookup kv).2,
        getUserId_preserves brand hdl lookup kv, ?_⟩
      simp only [pollTwitterReplies]
      split
      · rename_i kv1 heq
        left
        refine ⟨?_, rfl, rfl, rfl⟩
        show kv1 = (getUserId brand hdl lookup kv).2
        rw [heq]
      · rename_i uid kv1 heq
        have hsnd : (getUserId brand hdl lookup kv).2 = kv1 := by rw [heq]
        rw [← hsnd]
        split
        · exact Or.inl ⟨rfl, rfl, rfl, rfl⟩
        · split <;> split
          · exact Or.inl ⟨rfl, rfl, rfl, rfl⟩
          · exact Or.inr ⟨_, rfl⟩
          · exact Or.inl ⟨rfl, rfl, rfl, rfl⟩
          · exact Or.inr ⟨_, rfl⟩

/-- A pre-marked mention id is never dispatched by a mentions poll. -/
theorem pollMentions_skip_marked (brand : String) (e : PollEnv) (kv : KV)
    (p : String) (hp : (kv.get (Key.processed brand "mention" p)).isSome) :
    p ∉ (pollTwitterMentions brand e kv).dispatched := by
  rcases pollTwitterMentions_spec brand e kv with ⟨-, hd, -, -⟩ | ⟨l, heq⟩
  · rw [hd]; exact List.not_mem_nil p
  · rw [heq]
    exact engageLoop_skip brand "mention" e.dispatchOk l kv _ p hp

/-- On the processing path, a pre-marked id is never dispatched, counts track
dispatches, and the cursor value written is either the prior cursor value or
a dispatched id. -/
theorem runMentions_spec (brand : String) (d : String → Bool)
    (l : List Tweet) (kv : KV) (p : String)
    (hp : (kv.get (Key.processed brand "mention" p)).isSome) :
    p ∉ (runMentions brand d l kv).dispatched
    ∧ (runMentions brand d l kv).res.rewarded
        + (runMentions brand d l kv).res.failed
        = (runMentions brand d l kv).dispatched.length
    ∧ ∀ s, (runMentions brand d l kv).kv.getStr (Key.highwater "mentions" brand)
          = some s →
        kv.getStr (Key.highwater "mentions" brand) = some s
          ∨ s ∈ (runMentions brand d l kv).dispatched := by
  refine ⟨engageLoop_skip brand "mention" d l kv _ p hp,
    engageLoop_count brand "mention" d l kv _, ?_⟩
  intro s hs
  simp only [runMentions] at hs ⊢
  cases hno : (engageLoop brand "mention" d l kv
      (kv.getStr (Key.highwater "mentions" brand))).newest with
  | none =>
    rw [hno] at hs
    simp only [] at hs
    left
    rw [← hs]
    have hpres := engageLoop_preserves brand "mention" d l kv
      (kv.getStr (Key.highwater "mentions" brand))
      (Key.highwater "mentions" brand) (by intro i h; cases h)
    simp only [KV.getStr] at hpres ⊢
    rw [hpres]
  | some nid =>
    rw [hno] at hs
    simp only [] at hs
    rw [KV.getStr_put_self] at hs
    cases hs
    rcases engageLoop_newest_source brand "mention" d l kv
        (kv.getStr (Key.highwater "mentions" brand)) with hsrc | ⟨i, hi, hsome⟩
    · left
      rw [hno] at hsrc
      exact hsrc.symm
    · right
      rw [hno] at hsome
      cases hsome
      exact hi

/-- Counterexample to C1 as stated.  Batch `["100"]` where id "100" already
has a processed marker and the stored cursor is "50": the engagement is
(correctly) not dispatched and counted in neither `rewarded` nor `failed`
(`res = ⟨1, 0, 0, []⟩`), but the cursor written at the end of the poll is
still "50" — it is NOT advanced past "100" even though "100" is numerically
the newest id in the batch, because the `continue` for an already-processed
id in `router.js` (line 575) also skips the `newestTweetId` update
(lines 588–590). -/
theorem claim1_counterexample :
    (pollTwitterMentions "acme"
        ⟨some "tok", some "h", .ok [⟨"100", "u", "x", none⟩], fun _ => true⟩
        ⟨[(Key.processed "acme" "mention" "100", .str "true"),
          (Key.highwater "mentions" "acme", .str "50")]⟩).kv.getStr
        (Key.highwater "mentions" "acme") = some "50"
    ∧ decValue "50" < decValue "100"
    ∧ (pollTwitterMentions "acme"
        ⟨some "tok", some "h", .ok [⟨"100", "u", "x", none⟩], fun _ => true⟩
        ⟨[(Key.processed "acme" "mention" "100", .str "true"),
          (Key.highwater "mentions" "acme", .str "50")]⟩).res
        = ⟨1, 0, 0, []⟩
    ∧ (pollTwitterMentions "acme"
        ⟨some "tok", some "h", .ok [⟨"100", "u", "x", none⟩], fun _ => true⟩
        ⟨[(Key.processed "acme" "mention" "100", .str "true"),
          (Key.highwater "mentions" "acme", .str "50")]⟩).dispatched = [] := by
  decide

/-- C1 as amended.  In every mentions poll, an engagement id that already has
a processed marker is not dispatched again and counts in neither `rewarded`
nor `failed` (`rewarded + failed` equals the number of actually dispatched
engagements) — but the cursor written at the end of the poll is never a
skipped id: it is either the prior cursor value or the id of an engagement
dispatched in this poll, so the cursor does not advance past an
already-processed id that is the newest in the batch. -/
theorem claim1_amended (brand : String) (e : PollEnv) (kv : KV) (p : String)
    (hp : (kv.get (Key.processed brand "mention" p)).isSome) :
    p ∉ (pollTwitterMentions brand e kv).dispatched
    ∧ (pollTwitterMentions brand e kv).res.rewarded
        + (pollTwitterMentions brand e kv).res.failed
        = (pollTwitterMentions brand e kv).dispatched.length
    ∧ ∀ s, (pollTwitterMentions brand e kv).kv.getStr
          (Key.highwater "mentions" brand) = some s →
        kv.getStr (Key.highwater "mentions" brand) = some s
          ∨ s ∈ (pollTwitterMentions brand e kv).dispatched := by
  rcases pollTwitterMentions_spec brand e kv with ⟨hkv, hd, hr, hf⟩ | ⟨l, heq⟩
  · refine ⟨?_, ?_, ?_⟩
    · rw [hd]; exact List.not_mem_nil p
    · rw [hr, hf, hd]; rfl
    · intro s hs
      rw [hkv] at hs
      exact Or.inl hs
  · rw [heq]
    exact runMentions_spec brand e.dispatchOk l kv p hp

/-- Witness for the amended C1: the counterexample scenario, where "100" is
marked processed; the poll dispatches nothing and rewrites cursor "50". -/
theorem claim1_amended_witness :
    ("100" ∉ (pollTwitterMentions "acme"
        ⟨some "tok", some "h", .ok [⟨"100", "u", "x", none⟩, ⟨"70", "v", "y", none⟩],
         fun _ => true⟩
        ⟨[(Key.processed "acme" "mention" "100", .str "true"),
          (Key.highwater "mentions" "acme", .str "50")]⟩).dispatched) := by
  have h := claim1_amended "acme"
    ⟨some "tok", some "h", .ok [⟨"100", "u", "x", none⟩, ⟨"70", "v", "y", none⟩],
     fun _ => true⟩
    ⟨[(Key.processed "acme" "mention" "100", .str "true"),
      (Key.highwater "mentions" "acme", .str "50")]⟩ "100" (by decide)
  exact h.1

/-- Core of claim C2: for a two-element batch of fresh engagements whose ids
are `a` and `b` (in either order) with `a` numerically below `b`, and a prior
cursor absent or numerically below both, the mentions poll stores `b` as the
new cursor. -/
theorem c2CursorAux (brand tok hdl a b : String) (d : String → Bool)
    (l : List Tweet) (kv : KV)
    (hl : l.map Tweet.id = [a, b] ∨ l.map Tweet.id = [b, a])
    (hab : decValue a < decValue b)
    (hpa : kv.get (Key.processed brand "mention" a) = none)
    (hpb : kv.get (Key.processed brand "mention" b) = none)
    (hcur : kv.getStr (Key.highwater "mentions" brand) = none
      ∨ ∃ c, kv.getStr (Key.highwater "mentions" brand) = some c
          ∧ decValue c < decValue a) :
    (pollTwitterMentions brand ⟨some tok, some hdl, .ok l, d⟩ kv).kv.getStr
      (Key.highwater "mentions" brand) = some b := by
  have hlen : l.length = 2 := by
    rcases hl with hl | hl <;> simpa using congrArg List.length hl
  have hne : a ≠ b := by
    intro he; rw [he] at hab; exact lt_irrefl _ hab
  have hnodup : (l.map Tweet.id).Nodup := by
    rcases hl with hl | hl <;> rw [hl] <;> simp [hne, hne.symm]
  have hnew : ∀ t ∈ l, kv.get (Key.processed brand "mention" t.id) = none := by
    intro t ht
    have hmem : t.id ∈ l.map Tweet.id := List.mem_map_of_mem _ ht
    rcases hl with hl | hl <;> rw [hl] at hmem <;> simp at hmem <;>
      rcases hmem with rfl | rfl <;> assumption
  simp only [pollTwitterMentions]
  have hcond : ¬ (kv.getStr (Key.highwater "mentions" brand) = none
      ∧ 3 < l.length) := by
    rintro ⟨-, h3⟩
    rw [hlen] at h3
    omega
  rw [if_neg hcond]
  have hnonnil : l.isEmpty = false := by
    cases l with
    | nil => simp at hlen
    | cons x xs => rfl
  simp only [hnonnil, Bool.false_eq_true, if_false]
  set out := engageLoop brand "mention" d l kv
    (kv.getStr (Key.highwater "mentions" brand)) with hout
  have hdisp : out.dispatched = l.map Tweet.id :=
    engageLoop_all_new brand "mention" d l kv _ hnodup hnew
  have hbmem : b ∈ out.dispatched := by
    rw [hdisp]; rcases hl with hl | hl <;> rw [hl] <;> simp
  have hamem : a ∈ out.dispatched := by
    rw [hdisp]; rcases hl with hl | hl <;> rw [hl] <;> simp
  cases hno : out.newest with
  | none =>
    exfalso
    have := engageLoop_newest_none brand "mention" d l kv _ hno
    rw [this] at hbmem
    exact absurd hbmem (List.not_mem_nil b)
  | some n' =>
    have hub := engageLoop_newest_ub brand "mention" d l kv _ n' hno
    have hble : decValue b ≤ decValue n' := hub b hbmem
    have hale : decValue a ≤ decValue n' := hub a hamem
    have hnb : n' = b := by
      rcases engageLoop_newest_source brand "mention" d l kv
          (kv.getStr (Key.highwater "mentions" brand)) with hsrc | ⟨i, hi, hsome⟩
      · rw [← hout] at hsrc
        rw [hno] at hsrc
        rcases hcur with hc | ⟨c, hc, hca⟩
        · rw [hc] at hsrc; cases hsrc
        · rw [hc] at hsrc
          cases hsrc
          exact absurd (lt_of_le_of_lt hale hca) (lt_irrefl _)
      · rw [← hout] at hsome hi
        rw [hno] at hsome
        cases hsome
        rw [hdisp] at hi
        rcases hl with hl | hl <;> rw [hl] at hi <;> simp at hi <;>
          rcases hi with rfl | rfl
        · exact absurd (lt_of_lt_of_le hab hble) (lt_irrefl _)
        · rfl
        · rfl
        · exact absurd (lt_of_lt_of_le hab hble) (lt_irrefl _)
    rw [hnb]
    exact KV.getStr_put_self out.kv (Key.highwater "mentions" brand) b

/-- C2.  For any two fresh (unmarked) engagement ids `a` and `b` in the same
two-element batch with `BigInt(a) < BigInt(b)` — and any prior cursor that is
absent or numerically below the batch, as guaranteed by the `since_id` query
parameter — the cursor stored at the end of the poll is `b = max(a, b)`, no
matter in which order the two ids appear in the batch. -/
theorem claim2_cursor_is_numeric_max_of_pair
    (brand tok hdl a b : String) (d : String → Bool)
    (ta tb : Tweet) (kv : KV)
    (hta : ta.id = a) (htb : tb.id = b)
    (hab : decValue a < decValue b)
    (hpa : kv.get (Key.processed brand "mention" a) = none)
    (hpb : kv.get (Key.processed brand "mention" b) = none)
    (hcur : kv.getStr (Key.highwater "mentions" brand) = none
      ∨ ∃ c, kv.getStr (Key.highwater "mentions" brand) = some c
          ∧ decValue c < decValue a) :
    (pollTwitterMentions brand ⟨some tok, some hdl, .ok [ta, tb], d⟩ kv).kv.getStr
        (Key.highwater "mentions" brand) = some b
    ∧ (pollTwitterMentions brand ⟨some tok, some hdl, .ok [tb, ta], d⟩ kv).kv.getStr
        (Key.highwater "mentions" brand) = some b :=
  ⟨c2CursorAux brand tok hdl a b d [ta, tb] kv
      (Or.inl (by simp [hta, htb])) hab hpa hpb hcur,
   c2CursorAux brand tok hdl a b d [tb, ta] kv
      (Or.inr (by simp [hta, htb])) hab hpa hpb hcur⟩

/-- C3.  If the service-binding channel fails — transport error, non-2xx
status, or a body that is not valid JSON, all of which make
`internalSuccess` false — then the HTTP fallback is attempted with the
identical payload (both channels carry `buildPayload cfg tweet ty`); the
dispatch result is then exactly the fallback's outcome, so when both channels
fail `sendRewardEvent` returns `false` (it is a total function — every
exception in the source is caught, so it never throws); and independently of
the dispatch outcome the engagement is marked processed by the poll loop, so
a later poll never dispatches it again. -/
theorem claim3_dispatch_fallback_and_marking
    (cfg : BrandConfig) (tweet : Engagement) (ty : String)
    (internal http : ChannelOutcome)
    (brand typ : String) (d : String → Bool) (l : List Tweet) (kv : KV)
    (newest : Option String) (t : Tweet)
    (e : PollEnv) (kv2 : KV) (p : String)
    (hfail : internalSuccess internal = false)
    (ht : t ∈ l)
    (hp : (kv2.get (Key.processed brand "mention" p)).isSome) :
    (sendRewardEvent cfg tweet ty (some internal) http).sentInternal
        = some (buildPayload cfg tweet ty)
    ∧ (sendRewardEvent cfg tweet ty (some internal) http).sentHttp
        = some (buildPayload cfg tweet ty)
    ∧ (sendRewardEvent cfg tweet ty (some internal) http).success
        = httpSuccess http
    ∧ (httpSuccess http = false →
        (sendRewardEvent cfg tweet ty (some internal) http).success = false)
    ∧ (((engageLoop brand typ d l kv newest).kv).get
        (Key.processed brand typ t.id)).isSome
    ∧ p ∉ (pollTwitterMentions brand e kv2).dispatched := by
  refine ⟨?_, ?_, ?_, ?_, engageLoop_marks brand typ d l kv newest t ht,
    pollMentions_skip_marked brand e kv2 p hp⟩
  all_goals simp [sendRewardEvent, hfail]

/-- Witness for C3: a non-2xx service-binding response with a failing HTTP
fallback yields `false` (and nothing is thrown). -/
theorem claim3_witness :
    (sendRewardEvent ⟨some "0xB", some "h"⟩ ⟨"1", "u", "txt", none, none⟩
        "tweet_mention" (some (.resp false true)) .exn).success = false := by
  have h := claim3_dispatch_fallback_and_marking ⟨some "0xB", some "h"⟩
      ⟨"1", "u", "txt", none, none⟩ "tweet_mention" (.resp false true) .exn
      "acme" "mention" (fun _ => true) [⟨"1", "u", "t", none⟩] ⟨[]⟩ none
      ⟨"1", "u", "t", none⟩
      ⟨some "tok", some "h", .ok [], fun _ => true⟩
      ⟨[(Key.processed "acme" "mention" "1", .str "true")]⟩ "1"
      (by decide) (by decide) (by decide)
  exact h.2.2.2.1 rfl

/-- On a first run (no cursor) with more than three upstream results, the
poll is literally the processing tail on `batch.take 3`. -/
theorem pollMentions_first_run_eq (brand tok hdl : String) (d : String → Bool)
    (batch : List Tweet) (kv : KV)
    (hcur : kv.getStr (Key.highwater "mentions" brand) = none)
    (hlen : 3 < batch.length) :
    pollTwitterMentions brand ⟨some tok, some hdl, .ok batch, d⟩ kv
      = runMentions brand d (batch.take 3) kv := by
  have hne : (batch.take 3).isEmpty = false := by
    cases hb : batch with
    | nil => rw [hb] at hlen; simp at hlen
    | cons x xs => simp
  simp only [pollTwitterMentions]
  rw [if_pos (And.intro hcur hlen)]
  rw [if_neg (by rw [hne]; exact Bool.false_ne_true)]
  rfl

/-- C4.  First-run truncation: with no recorded cursor and an upstream batch
of more than 3 engagements (fresh, with distinct ids), exactly the first 3
of the upstream list are dispatched; the cursor stored afterwards is the
numerically newest id among those 3; and the poll's entire outcome is
independent of everything after the first 3 elements — truncation happens
before any processing, and the tail contributes to neither the dispatches
nor the cursor. -/
theorem claim4_first_run_truncation (brand tok hdl : String)
    (d : String → Bool) (batch : List Tweet) (kv : KV)
    (hcur : kv.getStr (Key.highwater "mentions" brand) = none)
    (hlen : 3 < batch.length)
    (hnodup : ((batch.take 3).map Tweet.id).Nodup)
    (hnew : ∀ t ∈ batch.take 3,
      kv.get (Key.processed brand "mention" t.id) = none) :
    (pollTwitterMentions brand ⟨some tok, some hdl, .ok batch, d⟩ kv).dispatched
        = (batch.take 3).map Tweet.id
    ∧ (∃ n, (pollTwitterMentions brand ⟨some tok, some hdl, .ok batch, d⟩
            kv).kv.getStr (Key.highwater "mentions" brand) = some n
        ∧ n ∈ (batch.take 3).map Tweet.id
        ∧ ∀ m ∈ (batch.take 3).map Tweet.id, decValue m ≤ decValue n)
    ∧ (∀ batch2 : List Tweet, batch2.take 3 = batch.take 3 →
        3 < batch2.length →
        pollTwitterMentions brand ⟨some tok, some hdl, .ok batch2, d⟩ kv
          = pollTwitterMentions brand ⟨some tok, some hdl, .ok batch, d⟩ kv) := by
  have hpoll := pollMentions_first_run_eq brand tok hdl d batch kv hcur hlen
  have hdisp : (runMentions brand d (batch.take 3) kv).dispatched
      = (batch.take 3).map Tweet.id :=
    engageLoop_all_new brand "mention" d (batch.take 3) kv _ hnodup hnew
  refine ⟨by rw [hpoll]; exact hdisp, ?_, ?_⟩
  · rw [hpoll]
    have hmem : ∃ x, x ∈ (batch.take 3).map Tweet.id := by
      have h3 : ((batch.take 3).map Tweet.id).length = 3 := by
        simp [List.length_take]
        omega
      cases hmap : (batch.take 3).map Tweet.id with
      | nil => rw [hmap] at h3; simp at h3
      | cons y ys => exact ⟨y, by simp⟩
    obtain ⟨x, hx⟩ := hmem
    simp only [runMentions] at hdisp ⊢
    cases hno : (engageLoop brand "mention" d (batch.take 3) kv
        (kv.getStr (Key.highwater "mentions" brand))).newest with
    | none =>
      exfalso
      have hd0 := engageLoop_newest_none brand "mention" d (batch.take 3) kv _ hno
      rw [hd0] at hdisp
      rw [← hdisp] at hx
      exact absurd hx (List.not_mem_nil x)
    | some n =>
      refine ⟨n, KV.getStr_put_self _ _ n, ?_, ?_⟩
      · rcases engageLoop_newest_source brand "mention" d (batch.take 3) kv
            (kv.getStr (Key.highwater "mentions" brand)) with hsrc | ⟨i, hi, hsome⟩
        · exfalso
          rw [hno, hcur] at hsrc
          cases hsrc
        · rw [hno] at hsome
          cases hsome
          rw [← hdisp]
          exact hi
      · intro m hm
        exact engageLoop_newest_ub brand "mention" d (batch.take 3) kv _ n hno m
          (by rw [hdisp]; exact hm)
  · intro batch2 htake hlen2
    rw [pollMentions_first_run_eq brand tok hdl d batch2 kv hcur hlen2, htake,
      hpoll]

/-- Witness for C4: a 5-element first-run batch (newest-first, ids 50..10);
only the first three are dispatched and the cursor becomes "50". -/
theorem claim4_witness :
    (pollTwitterMentions "acme"
        ⟨some "tok", some "h",
         .ok [⟨"50", "a", "p", none⟩, ⟨"40", "b", "q", none⟩,
              ⟨"30", "c", "r", none⟩, ⟨"20", "d", "s", none⟩,
              ⟨"10", "e", "t", none⟩], fun _ => true⟩ ⟨[]⟩).dispatched
      = ["50", "40", "30"] := by
  have h := claim4_first_run_truncation "acme" "tok" "h" (fun _ => true)
      [⟨"50", "a", "p", none⟩, ⟨"40", "b", "q", none⟩, ⟨"30", "c", "r", none⟩,
       ⟨"20", "d", "s", none⟩, ⟨"10", "e", "t", none⟩] ⟨[]⟩
      rfl (by decide) (by decide) (by decide)
  exact h.1

/-- C5.  Liker / retweeter reconstruction: with cached actor-id set `P` for a
post and a fresh fetch returning actors `F`, the actors reported as new are
exactly those whose id is in `F` but not in `P` (the set difference `F \ P`),
and the per-post cache is overwritten with exactly the fresh id list `F`. -/
theorem claim5_actor_diff (brand tid : String) (P : List String)
    (F : List Actor) (kv : KV)
    (hcL : kv.get (Key.likersChecked brand tid) = some (.ids P))
    (hcR : kv.get (Key.retweetersChecked brand tid) = some (.ids P)) :
    (∃ newL kvL, getTweetLikers brand tid (.success F) kv = .ok (newL, kvL)
      ∧ (∀ x, x ∈ newL.map Actor.id ↔ x ∈ F.map Actor.id ∧ x ∉ P)
      ∧ kvL.get (Key.likersChecked brand tid) = some (.ids (F.map Actor.id)))
    ∧ (∃ newR kvR, getTweetRetweeters brand tid (.success F) kv = .ok (newR, kvR)
      ∧ (∀ x, x ∈ newR.map Actor.id ↔ x ∈ F.map Actor.id ∧ x ∉ P)
      ∧ kvR.get (Key.retweetersChecked brand tid)
          = some (.ids (F.map Actor.id))) := by
  constructor
  · refine ⟨_, _, by simp only [getTweetLikers, hcL]; rfl, ?_,
      KV.get_put_self kv _ _⟩
    intro x
    simp only [List.mem_map, List.mem_filter]
    constructor
    · rintro ⟨a, ⟨haF, hp⟩, rfl⟩
      simp at hp
      exact ⟨⟨a, haF, rfl⟩, hp⟩
    · rintro ⟨⟨a, haF, rfl⟩, hnp⟩
      exact ⟨a, ⟨haF, by simpa using hnp⟩, rfl⟩
  · refine ⟨_, _, by simp only [getTweetRetweeters, hcR]; rfl, ?_,
      KV.get_put_self kv _ _⟩
    intro x
    simp only [List.mem_map, List.mem_filter]
    constructor
    · rintro ⟨a, ⟨haF, hp⟩, rfl⟩
      simp at hp
      exact ⟨⟨a, haF, rfl⟩, hp⟩
    · rintro ⟨⟨a, haF, rfl⟩, hnp⟩
      exact ⟨a, ⟨haF, by simpa using hnp⟩, rfl⟩

/-- Witness for C5: cached `{1,2,3}`, fresh fetch `{2,3,4,5}` — the new set
is `{4,5}` and the cache becomes `{2,3,4,5}`. -/
theorem claim5_witness :
    ∃ newL kvL,
      getTweetLikers "b" "T" (.success [⟨"2"⟩, ⟨"3"⟩, ⟨"4"⟩, ⟨"5"⟩])
          ⟨[(Key.likersChecked "b" "T", .ids ["1", "2", "3"]),
            (Key.retweetersChecked "b" "T", .ids ["1", "2", "3"])]⟩
        = .ok (newL, kvL)
      ∧ (∀ x, x ∈ newL.map Actor.id ↔
          x ∈ ["2", "3", "4", "5"] ∧ x ∉ ["1", "2", "3"])
      ∧ kvL.get (Key.likersChecked "b" "T")
          = some (.ids ["2", "3", "4", "5"]) := by
  have h := claim5_actor_diff "b" "T" ["1", "2", "3"]
    [⟨"2"⟩, ⟨"3"⟩, ⟨"4"⟩, ⟨"5"⟩]
    ⟨[(Key.likersChecked "b" "T", .ids ["1", "2", "3"]),
      (Key.retweetersChecked "b" "T", .ids ["1", "2", "3"])]⟩ rfl (by decide)
  exact h.1

/-- C6.  Failure isolation.  In `pollAllEngagements`, a likes poll that
throws (e.g. an insufficient-access-tier error) only lands in the likes
entry of the aggregate — it becomes that entry's error string, with zero
counts — while the mentions, replies and retweets entries still carry their
own polls' outcomes, and the orchestration itself completes without a
top-level error.  In `scheduled`, a brand whose stored config fails (is
corrupt) yields an error entry in the results but the loop continues:
the brands before and after it are processed exactly as they would be on
their own. -/
theorem claim6_failure_isolation (tok hdl : String)
    (m r rt : Except String PollResult) (eL : String)
    (pre post : List (String × BrandEntry)) (b e : String) :
    (pollAllEngagements (some tok) (some hdl) m r (.error eL) rt).results.mentions
        = settle m
    ∧ (pollAllEngagements (some tok) (some hdl) m r (.error eL) rt).results.replies
        = settle r
    ∧ (pollAllEngagements (some tok) (some hdl) m r (.error eL) rt).results.retweets
        = settle rt
    ∧ (pollAllEngagements (some tok) (some hdl) m r (.error eL) rt).results.likes
        = ⟨0, 0, 0, [eL]⟩
    ∧ (pollAllEngagements (some tok) (some hdl) m r (.error eL) rt).error = none
    ∧ scheduledRun (pre ++ (b, .corrupt e) :: post)
        = scheduledRun pre ++ ⟨b, false, some e⟩ :: scheduledRun post := by
  refine ⟨rfl, rfl, rfl, rfl, rfl, ?_⟩
  rw [scheduledRun_append]
  rfl

/-- C7.  `decryptCredential` fails closed: a blob bearing the `enc:` prefix
whose colon-separated layout is not exactly three parts, or whose version
tag is not `v1`, produces an error — never the blob itself nor any
plaintext.  A blob without the `enc:` prefix is returned unchanged as
already-plaintext. -/
theorem claim7_decrypt_fail_closed (boxOpen : String → String → Option String)
    (enc pk : String) :
    (startsWithEnc enc = true →
      ((splitColon enc).length ≠ 3 ∨ (splitColon enc).getD 1 "" ≠ "v1") →
      ∃ msg, decryptCredential boxOpen enc pk = .error msg)
    ∧ (startsWithEnc enc = false →
        decryptCredential boxOpen enc pk = .ok enc) := by
  constructor
  · intro hpre hbad
    simp only [decryptCredential]
    rw [if_neg (by rw [hpre]; exact fun hc => Bool.false_ne_true hc.symm)]
    by_cases hlen : (splitColon enc).length = 3
    · rcases hbad with hl | hv
      · exact absurd hlen hl
      · rw [if_neg (fun hc => hc hlen), if_pos hv]
        exact ⟨_, rfl⟩
    · rw [if_pos hlen]
      exact ⟨_, rfl⟩
  · intro hpre
    simp only [decryptCredential]
    rw [if_pos hpre]

/-- Witness for C7: a versioned blob with an unknown version `v2` fails
closed, and a plain (unprefixed) credential passes through unchanged. -/
theorem claim7_witness :
    (∃ msg, decryptCredential (fun _ _ => none) "enc:v2:abc" "pk" = .error msg)
    ∧ decryptCredential (fun _ _ => none) "hello-plaintext" "pk"
        = .ok "hello-plaintext" :=
  ⟨(claim7_decrypt_fail_closed (fun _ _ => none) "enc:v2:abc" "pk").1
      (by decide) (Or.inr (by decide)),
   (claim7_decrypt_fail_closed (fun _ _ => none) "hello-plaintext" "pk").2
      (by decide)⟩

/-- C8.  Cursor monotonicity: for any mentions or replies poll whose stored
cursor is `c`, the cursor after the poll is either the same value or an id
numerically (big-integer) greater than `c` — it never moves backward.  The
comparison is numeric on the decimal strings, not lexical: a concrete batch
with ids "9" and "10" stores "10" as the new cursor even though "10" < "9"
in lexicographic string order. -/
theorem claim8_cursor_monotone (brand : String) (eM : PollEnv) (eR : ReplyEnv)
    (kvM kvR : KV) (cM cR : String)
    (hcM : kvM.getStr (Key.highwater "mentions" brand) = some cM)
    (hcR : kvR.getStr (Key.highwater "replies" brand) = some cR) :
    (∃ c', (pollTwitterMentions brand eM kvM).kv.getStr
          (Key.highwater "mentions" brand) = some c'
        ∧ (c' = cM ∨ decValue cM < decValue c'))
    ∧ (∃ c', (pollTwitterReplies brand eR kvR).kv.getStr
          (Key.highwater "replies" brand) = some c'
        ∧ (c' = cR ∨ decValue cR < decValue c'))
    ∧ ((pollTwitterMentions "acme"
          ⟨some "t", some "h",
           .ok [⟨"9", "u", "x", none⟩, ⟨"10", "v", "y", none⟩],
           fun _ => true⟩ ⟨[]⟩).kv.getStr (Key.highwater "mentions" "acme")
          = some "10"
        ∧ "10".data < "9".data) := by
  refine ⟨?_, ?_, by decide, by decide⟩
  · rcases pollTwitterMentions_spec brand eM kvM with ⟨hkv, -, -, -⟩ | ⟨l, heq⟩
    · exact ⟨cM, by rw [hkv]; exact hcM, Or.inl rfl⟩
    · rw [heq]
      simp only [runMentions]
      rw [hcM]
      rcases engageLoop_newest_strict brand "mention" eM.dispatchOk l kvM cM
          with h | ⟨n', hn', hlt⟩
      · refine ⟨cM, ?_, Or.inl rfl⟩
        rw [h]
        exact KV.getStr_put_self _ _ cM
      · refine ⟨n', ?_, Or.inr hlt⟩
        rw [hn']
        exact KV.getStr_put_self _ _ n'
  · rcases pollTwitterReplies_spec brand eR kvR with ⟨kv1, hagree, hpath⟩
    have hcR1 : kv1.getStr (Key.highwater "replies" brand) = some cR := by
      have hg := hagree (Key.highwater "replies" brand) (by intro b h2 h; cases h)
      simp only [KV.getStr] at hcR ⊢
      rw [hg]
      exact hcR
    rcases hpath with ⟨hkv, -, -, -⟩ | ⟨l, heq⟩
    · exact ⟨cR, by rw [hkv]; exact hcR1, Or.inl rfl⟩
    · rw [heq]
      simp only [runReplies]
      rw [hcR1]
      rcases engageLoop_newest_strict brand "reply" eR.dispatchOk l kv1 cR
          with h | ⟨n', hn', hlt⟩
      · refine ⟨cR, ?_, Or.inl rfl⟩
        rw [h]
        exact KV.getStr_put_self _ _ cR
      · refine ⟨n', ?_, Or.inr hlt⟩
        rw [hn']
        exact KV.getStr_put_self _ _ n'

/-- Witness for C8: a poll whose upstream errors out leaves the concrete
cursor "5" in place (the trivial monotone case). -/
theorem claim8_witness :
    ∃ c', (pollTwitterMentions "w" ⟨some "t", some "h", .error 500, fun _ => true⟩
        ⟨[(Key.highwater "mentions" "w", .str "5")]⟩).kv.getStr
        (Key.highwater "mentions" "w") = some c'
      ∧ (c' = "5" ∨ decValue "5" < decValue c') := by
  have h := claim8_cursor_monotone "w"
    ⟨some "t", some "h", .error 500, fun _ => true⟩
    ⟨some "t", some "h", .ok (some "42"), .error 500, fun _ => true⟩
    ⟨[(Key.highwater "mentions" "w", .str "5")]⟩
    ⟨[(Key.highwater "replies" "w", .str "8")]⟩ "5" "8" rfl rfl
  exact h.1

/-- Counterexample to C9 as stated.  A replies poll whose upstream search
returns a 500 does return `found = rewarded = failed = 0` with exactly one
error string — but it does NOT perform "no state writes at all": when the
handle→user-id lookup was a cache miss, `getUserId` has already written the
`user_id:{brand}:{handle}` cache entry before the search ran, so the store
after the poll differs from the store before it. -/
theorem claim9_counterexample :
    (pollTwitterReplies "b"
        ⟨some "tok", some "h", .ok (some "42"), .error 500, fun _ => true⟩
        ⟨[]⟩).kv ≠ ⟨[]⟩
    ∧ (pollTwitterReplies "b"
        ⟨some "tok", some "h", .ok (some "42"), .error 500, fun _ => true⟩
        ⟨[]⟩).res = ⟨0, 0, 0, ["Twitter API error: 500"]⟩ := by
  constructor
  · decide
  · decide

/-- C9 as amended.  If the upstream search returns a non-2xx status, the
poll returns `found = rewarded = failed = 0` with exactly one error string;
a mentions poll then performs no state writes at all, and a replies poll
leaves every cursor and every processed marker unchanged — the only write it
may have performed is the handle→user-id cache entry from `getUserId`. -/
theorem claim9_amended (brand tokM hdlM tokR hdlR : String)
    (dM dR : String → Bool) (sM sR : Nat) (kvM kvR : KV)
    (lookup : Except Nat (Option String)) (uid : String) (kv1 : KV)
    (hu : getUserId brand hdlR lookup kvR = (some uid, kv1)) :
    pollTwitterMentions brand ⟨some tokM, some hdlM, .error sM, dM⟩ kvM
      = ⟨⟨0, 0, 0, ["Twitter API error: " ++ toString sM]⟩, kvM, []⟩
    ∧ pollTwitterReplies brand ⟨some tokR, some hdlR, lookup, .error sR, dR⟩ kvR
      = ⟨⟨0, 0, 0, ["Twitter API error: " ++ toString sR]⟩, kv1, []⟩
    ∧ (∀ typ b2, kv1.getStr (Key.highwater typ b2)
        = kvR.getStr (Key.highwater typ b2))
    ∧ (∀ b2 ty i, kv1.get (Key.processed b2 ty i)
        = kvR.get (Key.processed b2 ty i)) := by
  refine ⟨rfl, ?_, ?_, ?_⟩
  · simp only [pollTwitterReplies]
    rw [hu]
  · intro typ b2
    have hg := getUserId_preserves brand hdlR lookup kvR
      (Key.highwater typ b2) (by intro b h2 h; cases h)
    rw [hu] at hg
    simp only [KV.getStr]
    rw [hg]
  · intro b2 ty i
    have hg := getUserId_preserves brand hdlR lookup kvR
      (Key.processed b2 ty i) (by intro b h2 h; cases h)
    rw [hu] at hg
    exact hg

/-- Witness for the amended C9: concrete replies poll against a 500 with a
cache-miss user-id lookup; the result carries exactly one error and the only
store change is the user-id cache entry. -/
theorem claim9_amended_witness :
    pollTwitterReplies "b"
        ⟨some "tok", some "h", .ok (some "42"), .error 500, fun _ => true⟩ ⟨[]⟩
      = ⟨⟨0, 0, 0, ["Twitter API error: 500"]⟩,
         ⟨[(Key.userId "b" "h", .str "42")]⟩, []⟩ := by
  have h := claim9_amended "b" "tok" "h" "tok" "h" (fun _ => true) (fun _ => true)
    500 500 ⟨[]⟩ ⟨[]⟩ (.ok (some "42")) "42"
    ⟨[(Key.userId "b" "h", .str "42")]⟩ (by decide)
  exact h.2.1

/-- C10.  The per-post liker cache is replaced, not merged: after a fetch it
holds exactly the fresh actor-id list, so an actor present in the old cache
but absent from the fresh fetch is dropped; if that actor appears again in a
later fetch they are reported as new a second time; and only the separate
per-engagement processed marker prevents the duplicate like-event from being
dispatched again. -/
theorem claim10_cache_replaced (brand tid x : String) (P : List String)
    (F F2 : List Actor) (kv : KV) (d : String → Bool) (A : List Actor)
    (kv3 : KV)
    (hc : kv.get (Key.likersChecked brand tid) = some (.ids P))
    (hxP : x ∈ P) (hxF : x ∉ F.map Actor.id)
    (hxF2 : x ∈ F2.map Actor.id)
    (hm : (kv3.get (Key.processed brand "like" (likeEventId tid x))).isSome) :
    (∃ newL kvL, getTweetLikers brand tid (.success F) kv = .ok (newL, kvL)
      ∧ kvL.get (Key.likersChecked brand tid) = some (.ids (F.map Actor.id))
      ∧ x ∉ F.map Actor.id
      ∧ ∃ newL2 kvL2,
          getTweetLikers brand tid (.success F2) kvL = .ok (newL2, kvL2)
          ∧ x ∈ newL2.map Actor.id)
    ∧ likeEventId tid x ∉ (likersLoop brand d tid A kv3).dispatched := by
  refine ⟨⟨_, _, by simp only [getTweetLikers, hc]; rfl,
      KV.get_put_self kv _ _, hxF, ?_⟩,
    likersLoop_skip brand d tid A kv3 _ hm⟩
  refine ⟨_, _, by simp only [getTweetLikers, KV.get_put_self]; rfl, ?_⟩
  rcases List.mem_map.mp hxF2 with ⟨a, haF2, rfl⟩
  exact List.mem_map.mpr
    ⟨a, List.mem_filter.mpr ⟨haF2, by simpa using hxF⟩, rfl⟩

/-- Witness for C10: actor "1" is in the old cache but not the fresh fetch,
acts again in a second fetch, and its like-event marker blocks dispatch. -/
theorem claim10_witness :
    likeEventId "T" "1" ∉ (likersLoop "b" (fun _ => true) "T" [⟨"1"⟩]
      ⟨[(Key.processed "b" "like" "like_T_1", .str "true")]⟩).dispatched := by
  have h := claim10_cache_replaced "b" "T" "1" ["1", "2"] [⟨"2"⟩]
    [⟨"1"⟩, ⟨"2"⟩] ⟨[(Key.likersChecked "b" "T", .ids ["1", "2"])]⟩
    (fun _ => true) [⟨"1"⟩]
    ⟨[(Key.processed "b" "like" "like_T_1", .str "true")]⟩
    rfl (by decide) (by decide) (by decide) (by decide)
  exact h.2

/-- Witness for C2: a concrete first-run batch with ids 7 and 10, in both
orders, ends with cursor "10". -/
theorem claim2_witness :
    (pollTwitterMentions "acme"
        ⟨some "tok", some "h",
         .ok [⟨"7", "u", "x", none⟩, ⟨"10", "v", "y", none⟩],
         fun _ => true⟩ ⟨[]⟩).kv.getStr
        (Key.highwater "mentions" "acme") = some "10"
    ∧ (pollTwitterMentions "acme"
        ⟨some "tok", some "h",
         .ok [⟨"10", "v", "y", none⟩, ⟨"7", "u", "x", none⟩],
         fun _ => true⟩ ⟨[]⟩).kv.getStr
        (Key.highwater "mentions" "acme") = some "10" :=
  claim2_cursor_is_numeric_max_of_pair "acme" "tok" "h" "7" "10" (fun _ => true)
    ⟨"7", "u", "x", none⟩ ⟨"10", "v", "y", none⟩ ⟨[]⟩ rfl rfl (by decide)
    rfl rfl (Or.inl rfl)

end XBot
